import Mathlib

/-!
Shallow embedding of the connection-level RPC engine of czrpc
(source/crazygaze/rpc/RPCConnection.h): the Call builder, the outbound work
queue, the reply correlator, and the inbound read loop.

Modelling conventions.  A frame buffer (the C++ Stream) is a list of
natural-number cells whose first four cells hold the header fields in order
(rpcid, isReply flag, size, counter) and whose remaining cells are the body
bytes.  Handlers are type-erased in the C++ code; here a handler is a
natural-number identity, and invoking a handler appends an entry to an
invocation log.  Transport receive results are modelled as a queue of
events (closed / open-with-no-data / frame); a closed transport stays
closed, so the closed event is never consumed.
-/

namespace CzRpc

/-- Header of a frame. Modelled from the spec: the bit layout of the C++
Header (in RPCBase.h, not under src/) is unknown; the fields are the four
the spec names: callId (rpcid), isReply, size, counter. -/
structure Header where
  rpcid : Nat
  isReply : Bool
  size : Nat
  counter : Nat
deriving Repr, DecidableEq

/-- Number of buffer cells occupied by the reserved header.
Modelled from the spec: the header has a fixed width, known at reserve time. -/
def headerWords : Nat := 4

/-- Encode a header into its four leading buffer cells.
Modelled from the spec: fixed-width, fixed-order layout. -/
def encodeHeader (h : Header) : List Nat :=
  [h.rpcid, if h.isReply then 1 else 0, h.size, h.counter]

/-- Decode the header from the four leading cells of a buffer. -/
def decodeHeader (data : List Nat) : Header :=
  { rpcid := data.getD 0 0
    isReply := data.getD 1 0 != 0
    size := data.getD 2 0
    counter := data.getD 3 0 }

/-- Correlation key of a header: the (callId, counter) pair.
Modelled from the spec: hdr.key() combines call id and counter. -/
def Header.key (h : Header) : Nat × Nat := (h.rpcid, h.counter)

/-- The writeSize of a buffer: total number of written cells. -/
def writeSize (data : List Nat) : Nat := data.length

/-- Patch the reserved header in place with the final size and counter,
as Connection::send does: hdr.bits.size and hdr.bits.counter are
overwritten, the other cells are untouched. -/
def patch (data : List Nat) (sz cnt : Nat) : List Nat :=
  (data.set 2 sz).set 3 cnt

/-- One result delivered to a completion handler: a decoded reply body, or
a failure (connection aborted). Models Result of T in the C++ code. -/
inductive RpcResult
  | ok (body : List Nat)
  | fail
deriving Repr, DecidableEq

/-- One transport receive outcome, per the transport contract: receive
returns false when the connection is permanently closed; true with an empty
buffer when open but nothing pending; true with one frame otherwise.
A closed transport stays closed, so the closed event is not consumed. -/
inductive RecvEvent
  | closed
  | nodata
  | frame (data : List Nat)
deriving Repr, DecidableEq

/-- Events recorded by processOut, in the order the code performs them:
the queue swap, then per queue entry the handler registration followed by
the transport send. -/
inductive Ev
  | swapEv (n : Nat)
  | regEv (key : Nat × Nat) (h : Nat)
  | sendEv (data : List Nat)
deriving Repr, DecidableEq

/-- State of a Connection: the outbound work queue (Monitor-protected
m_outWork), the OutProcessor replyIdCounter and reply-handler map
(correlator), logs of handler invocations, locally dispatched call frames
and transport sends, the inbound transport event queue, the two optional
signals, and the event trace of processOut. -/
structure Connection where
  outWork : List (List Nat × Nat)
  replyIdCounter : Nat
  replyHandlers : List ((Nat × Nat) × Nat)
  invoked : List (Nat × RpcResult)
  localDispatched : List (List Nat)
  sentFrames : List (List Nat)
  recvQueue : List RecvEvent
  outSignalSet : Bool
  outSignalCount : Nat
  disconnectSignalSet : Bool
  disconnectCount : Nat
  trace : List Ev
deriving Repr, DecidableEq

/-- A fresh connection: empty queue, correlator and logs.
Modelled from the spec: replyIdCounter starts so that the first assigned
counter is above zero, i.e. at zero before its first pre-increment. -/
def freshConnection (events : List RecvEvent) : Connection :=
  { outWork := []
    replyIdCounter := 0
    replyHandlers := []
    invoked := []
    localDispatched := []
    sentFrames := []
    recvQueue := events
    outSignalSet := false
    outSignalCount := 0
    disconnectSignalSet := true
    disconnectCount := 0
    trace := [] }

/-- Connection::send: take a fresh pointer to the reserved header, patch
size with the buffer writeSize and counter with the pre-incremented
replyIdCounter, register the handler in the correlator under the patched
header key, and only then hand the buffer to the transport. -/
def Connection.send (s : Connection) (data : List Nat) (h : Nat) : Connection :=
  let cnt := s.replyIdCounter + 1
  let data2 := patch data (writeSize data) cnt
  let key := (decodeHeader data2).key
  { s with
    replyIdCounter := cnt
    replyHandlers := s.replyHandlers ++ [(key, h)]
    sentFrames := s.sentFrames ++ [data2]
    trace := s.trace ++ [Ev.regEv key h, Ev.sendEv data2] }

/-- The while loop of Connection::processOut: execute each queued send
action, front to back, popping as it goes. -/
def runOutWork (s : Connection) : List (List Nat × Nat) → Connection
  | [] => s
  | (d, h) :: rest => runOutWork (s.send d h) rest

/-- Connection::processOut: swap the queue contents into a private local
list under the Monitor critical section, then run every action outside
the lock. -/
def Connection.processOut (s : Connection) : Connection :=
  let q := s.outWork
  runOutWork
    { s with outWork := [], trace := s.trace ++ [Ev.swapEv q.length] } q

/-- Connection::commit: under the Monitor critical section enqueue a send
action capturing the buffer and the handler, then fire the out-signal if
set. -/
def Connection.commit (s : Connection) (data : List Nat) (h : Nat) : Connection :=
  { s with
    outWork := s.outWork ++ [(data, h)]
    outSignalCount := s.outSignalCount + (if s.outSignalSet then 1 else 0) }

/-- OutProcessor::abortReplies. Modelled from the spec: deliver a failure
result to each registered handler, then clear the correlator. -/
def Connection.abortReplies (s : Connection) : Connection :=
  { s with
    invoked := s.invoked ++ s.replyHandlers.map (fun e => (e.2, RpcResult.fail))
    replyHandlers := [] }

/-- OutProcessor::processReply. Modelled from the spec: look up and remove
the correlator entry for the header key and invoke its handler with the
decoded reply body; a frame whose key has no entry is discarded. -/
def Connection.processReply (s : Connection) (data : List Nat) (hdr : Header) :
    Connection :=
  match s.replyHandlers.find? (fun e => e.1 == hdr.key) with
  | some e =>
      { s with
        replyHandlers := s.replyHandlers.eraseP (fun x => x.1 == hdr.key)
        invoked := s.invoked ++ [(e.2, RpcResult.ok (data.drop headerWords))] }
  | none => s

/-- InProcessor::processCall. Modelled from the spec: route the call frame
to the local-dispatch delegate; the delegate is external, so only the
routing is recorded. -/
def Connection.processCall (s : Connection) (data : List Nat) : Connection :=
  { s with localDispatched := s.localDispatched ++ [data] }

/-- Body of one iteration of processIn for an available frame: decode the
header and route the frame by its isReply flag. -/
def inStep (s : Connection) (data : List Nat) : Connection :=
  let hdr := decodeHeader data
  if hdr.isReply then s.processReply data hdr else s.processCall data

/-- The while loop of Connection::processIn, driven by the queue of
transport receive outcomes: on closed, abort all pending replies and
return false without consuming the event (the transport stays closed); on
open-with-no-data, stop with true; on a frame, route it and keep
draining. An exhausted event queue reads as open with no data. -/
def processInLoop : List RecvEvent → Connection → Connection × Bool
  | [], s => ({ s with recvQueue := [] }, true)
  | RecvEvent.closed :: rest, s =>
      ({ s.abortReplies with recvQueue := RecvEvent.closed :: rest }, false)
  | RecvEvent.nodata :: rest, s => ({ s with recvQueue := rest }, true)
  | RecvEvent.frame data :: rest, s => processInLoop rest (inStep s data)

/-- Connection::processIn. -/
def Connection.processIn (s : Connection) : Connection × Bool :=
  processInLoop s.recvQueue s

/-- BaseConnection::Direction. -/
inductive Direction
  | In
  | Out
  | Both
deriving Repr, DecidableEq

/-- Whether the direction includes Out (bit test in the C++ code). -/
def Direction.hasOut : Direction → Bool
  | Direction.Out => true
  | Direction.Both => true
  | Direction.In => false

/-- Whether the direction includes In (bit test in the C++ code). -/
def Direction.hasIn : Direction → Bool
  | Direction.In => true
  | Direction.Both => true
  | Direction.Out => false

/-- Connection::process: processOut when Out is requested, then processIn
when In is requested; when processIn reports the transport closed, fire
the disconnect signal if set and null it out so it fires only once. -/
def Connection.process (s : Connection) (what : Direction) : Connection :=
  let s1 := if what.hasOut then s.processOut else s
  if what.hasIn then
    let p := s1.processIn
    if p.2 then p.1
    else if p.1.disconnectSignalSet then
      { p.1 with
        disconnectSignalSet := false
        disconnectCount := p.1.disconnectCount + 1 }
    else p.1
  else s1

/-- A Call builder: its frame buffer (m_data) and committed flag
(m_commited). The reference to the owning connection is passed explicitly
to each operation. -/
structure Call where
  data : List Nat
  committed : Bool
deriving Repr, DecidableEq

/-- The handler identity used by the destructor no-op discard handler. -/
def noopHandler : Nat := 0

/-- The protected Call constructor: reserve space for the header by
writing a header with the given rpcid (other fields zero) into the fresh
stream. -/
def Call.mkCall (rpcid : Nat) : Call :=
  { data := encodeHeader { rpcid := rpcid, isReply := false, size := 0, counter := 0 }
    committed := false }

/-- Call::serializeParams. Modelled from the spec: the external codec
appends the encoded arguments after the reserved header; the encoding
itself is opaque, so the encoded bytes are taken as given. -/
def Call.serializeParams (c : Call) (args : List Nat) : Call :=
  { c with data := c.data ++ args }

/-- Call::async: commit the moved-out buffer with the handler on the owning
connection and mark the builder committed. Modelled from the spec for the
moved-from stream: after std::move, m_data is empty. Returns the builder
after the call together with the updated connection. -/
def Call.async (c : Call) (h : Nat) (con : Connection) : Call × Connection :=
  ({ c with data := [], committed := true }, con.commit c.data h)

/-- Call::ft: commits through async with a handler that resolves a
promise; the promise side is external, so it reduces to async with the
given handler identity. -/
def Call.ft (c : Call) (h : Nat) (con : Connection) : Call × Connection :=
  c.async h con

/-- The Call destructor: if the stream has written data and the builder was
never committed, do an implicit async with a no-op handler. -/
def Call.dtor (c : Call) (con : Connection) : Connection :=
  if writeSize c.data != 0 && !c.committed then (c.async noopHandler con).2
  else con

/-- The Call move constructor: the new builder takes the stream and the
committed flag; the moved-from builder keeps its committed flag but its
stream is left empty. Modelled from the spec for the moved-from stream.
Returns (moved-to, moved-from). -/
def Call.moveFrom (c : Call) : Call × Call :=
  ({ data := c.data, committed := c.committed },
   { data := [], committed := c.committed })

/-- Connection::call: construct a builder with the rpcid (reserving the
header) and serialize the arguments into it. The connection state itself
is untouched until commit. -/
def Connection.call (rpcid : Nat) (args : List Nat) : Call :=
  (Call.mkCall rpcid).serializeParams args

/-- The reserved rpcid of the generic RPC. Modelled from the spec: a
reserved sentinel call id for generic-name dispatch. -/
def genericRPCId : Nat := 0

/-- Connection::callGeneric: same mechanics as call, targeting the generic
rpcid, with the method name and dynamic arguments as the encoded body. -/
def Connection.callGeneric (nameAndArgs : List Nat) : Call :=
  Connection.call genericRPCId nameAndArgs

/-- Commit a list of finalized calls in order (each commit enqueues one
send action). -/
def commitAll (s : Connection) (es : List (List Nat × Nat)) : Connection :=
  es.foldl (fun t e => t.commit e.1 e.2) s

/-- The frames processOut sends for a queue, starting from a given counter
value: the i-th queued buffer patched with its writeSize and counter
c0 + i + 1. -/
def framesFrom (c0 : Nat) : List (List Nat × Nat) → List (List Nat)
  | [] => []
  | (d, _) :: rest => patch d (writeSize d) (c0 + 1) :: framesFrom (c0 + 1) rest

/-- The correlator registrations processOut performs for a queue. -/
def regsFrom (c0 : Nat) : List (List Nat × Nat) → List ((Nat × Nat) × Nat)
  | [] => []
  | (d, h) :: rest =>
      ((decodeHeader (patch d (writeSize d) (c0 + 1))).key, h) ::
        regsFrom (c0 + 1) rest

/-- The event trace processOut records for a queue: per entry, the
registration event strictly before the send event. -/
def outEventsFrom (c0 : Nat) : List (List Nat × Nat) → List Ev
  | [] => []
  | (d, h) :: rest =>
      Ev.regEv (decodeHeader (patch d (writeSize d) (c0 + 1))).key h ::
        Ev.sendEv (patch d (writeSize d) (c0 + 1)) ::
          outEventsFrom (c0 + 1) rest

/-- The counter cell of a frame. -/
def counterOf (f : List Nat) : Nat := f.getD 3 0

lemma counterOf_patch : ∀ (d : List Nat), 4 ≤ d.length → ∀ sz cnt,
    counterOf (patch d sz cnt) = cnt
  | _ :: _ :: _ :: _ :: _, _, sz, cnt => by
      simp [counterOf, patch]

lemma runOutWork_spec (q : List (List Nat × Nat)) (s : Connection) :
    runOutWork s q =
      { s with
        replyIdCounter := s.replyIdCounter + q.length
        replyHandlers := s.replyHandlers ++ regsFrom s.replyIdCounter q
        sentFrames := s.sentFrames ++ framesFrom s.replyIdCounter q
        trace := s.trace ++ outEventsFrom s.replyIdCounter q } := by
  induction q generalizing s with
  | nil => simp [runOutWork, framesFrom, regsFrom, outEventsFrom]
  | cons e rest ih =>
    obtain ⟨d, h⟩ := e
    simp only [runOutWork, ih, Connection.send, framesFrom, regsFrom,
      outEventsFrom, List.length_cons]
    congr 1 <;> first | rfl | omega | simp [List.append_assoc]

lemma processOut_spec (s : Connection) :
    s.processOut =
      { s with
        outWork := []
        replyIdCounter := s.replyIdCounter + s.outWork.length
        replyHandlers := s.replyHandlers ++ regsFrom s.replyIdCounter s.outWork
        sentFrames := s.sentFrames ++ framesFrom s.replyIdCounter s.outWork
        trace := s.trace ++ Ev.swapEv s.outWork.length ::
          outEventsFrom s.replyIdCounter s.outWork } := by
  simp [Connection.processOut, runOutWork_spec]

lemma commitAll_spec (es : List (List Nat × Nat)) (s : Connection) :
    (commitAll s es).outWork = s.outWork ++ es ∧
    (commitAll s es).replyIdCounter = s.replyIdCounter ∧
    (commitAll s es).sentFrames = s.sentFrames ∧
    (commitAll s es).replyHandlers = s.replyHandlers ∧
    (commitAll s es).trace = s.trace := by
  induction es generalizing s with
  | nil => simp [commitAll]
  | cons e rest ih =>
    obtain ⟨d, h⟩ := e
    simpa [commitAll, Connection.commit, List.append_assoc] using
      ih (s.commit d h)

lemma counters_framesFrom (q : List (List Nat × Nat)) (c0 : Nat)
    (hq : ∀ e ∈ q, 4 ≤ e.1.length) :
    (framesFrom c0 q).map counterOf = List.range' (c0 + 1) q.length := by
  induction q generalizing c0 with
  | nil => simp [framesFrom]
  | cons e rest ih =>
    obtain ⟨d, h⟩ := e
    have hd : 4 ≤ d.length := hq (d, h) (by simp)
    have hrest : ∀ x ∈ rest, 4 ≤ x.1.length := fun x hx => hq x (by simp [hx])
    simp [framesFrom, counterOf_patch d hd, ih (c0 + 1) hrest,
      List.range'_succ]

lemma length_framesFrom (q : List (List Nat × Nat)) (c0 : Nat) :
    (framesFrom c0 q).length = q.length := by
  induction q generalizing c0 with
  | nil => simp [framesFrom]
  | cons e rest ih =>
    obtain ⟨d, h⟩ := e
    simp [framesFrom, ih]

lemma outEventsFrom_pairs (q : List (List Nat × Nat)) (c0 : Nat) :
    ∀ i, i < q.length → ∃ key h f,
      (outEventsFrom c0 q).get? (2 * i) = some (Ev.regEv key h) ∧
      (outEventsFrom c0 q).get? (2 * i + 1) = some (Ev.sendEv f) := by
  induction q generalizing c0 with
  | nil => intro i hi; simp at hi
  | cons e rest ih =>
    obtain ⟨d, h⟩ := e
    intro i hi
    cases i with
    | zero =>
      refine ⟨(decodeHeader (patch d (writeSize d) (c0 + 1))).key, h,
        patch d (writeSize d) (c0 + 1), ?_, ?_⟩
      · simp [outEventsFrom]
      · simp [outEventsFrom]
    | succ j =>
      obtain ⟨key, hh, f, h1, h2⟩ := ih (c0 + 1) j (by simpa using hi)
      have e1 : 2 * (j + 1) = 2 * j + 1 + 1 := by omega
      have e2 : 2 * (j + 1) + 1 = 2 * j + 1 + 1 + 1 := by omega
      refine ⟨key, hh, f, ?_, ?_⟩
      · simp only [outEventsFrom, e1, List.get?_cons_succ]
        exact h1
      · simp only [outEventsFrom, e2, List.get?_cons_succ]
        exact h2

/-- C1: for every sequence of N calls committed before any process(Out) on
a fresh connection, one process(Out) call sends every call frame (the
i-th queued buffer, patched) with a unique counter value; the counters,
read in the order the calls were finalized, are exactly 1, 2, ..., N,
hence strictly increasing, pairwise distinct, and the first one is
strictly greater than zero. -/
theorem c1_counters_unique_increasing (entries : List (List Nat × Nat))
    (ev : List RecvEvent) (hq : ∀ e ∈ entries, 4 ≤ e.1.length) :
    (commitAll (freshConnection ev) entries).outWork = entries ∧
    ((commitAll (freshConnection ev) entries).processOut).sentFrames =
      framesFrom 0 entries ∧
    (((commitAll (freshConnection ev) entries).processOut).sentFrames).length =
      entries.length ∧
    (((commitAll (freshConnection ev) entries).processOut).sentFrames).map
        counterOf = List.range' 1 entries.length ∧
    ((((commitAll (freshConnection ev) entries).processOut).sentFrames).map
        counterOf).Pairwise (· < ·) ∧
    ((((commitAll (freshConnection ev) entries).processOut).sentFrames).map
        counterOf).Nodup ∧
    ∀ c ∈ (((commitAll (freshConnection ev) entries).processOut).sentFrames).map
        counterOf, 0 < c := by
  obtain ⟨how, hcnt, hsent, -, -⟩ := commitAll_spec entries (freshConnection ev)
  have hfq : (freshConnection ev).outWork = [] := rfl
  have hfc : (freshConnection ev).replyIdCounter = 0 := rfl
  have hfs : (freshConnection ev).sentFrames = [] := rfl
  rw [hfq] at how
  simp only [List.nil_append] at how
  have hspec := processOut_spec (commitAll (freshConnection ev) entries)
  rw [hspec]
  simp only [how, hcnt, hsent, hfc, hfs, List.nil_append]
  have hmap := counters_framesFrom entries 0 hq
  simp only [Nat.zero_add] at hmap
  refine ⟨by trivial, by trivial, length_framesFrom entries 0, hmap, ?_, ?_, ?_⟩
  · rw [hmap]; exact List.pairwise_lt_range' 1 entries.length
  · rw [hmap]; exact List.nodup_range' 1 entries.length
  · rw [hmap]; intro c hc
    have := List.mem_range'_1.mp hc
    omega

/-- A concrete three-entry queue used by the witnesses: three finalized
calls, each buffer holding a reserved header and (for two of them) body
cells. -/
def sampleQueue : List (List Nat × Nat) :=
  [([10, 0, 0, 0, 7], 1), ([11, 0, 0, 0], 2), ([12, 0, 0, 0, 5, 6], 3)]

/-- Witness for C1 at the concrete queue of three calls: the counters of
the three frames sent are exactly 1, 2, 3. -/
theorem c1_counters_unique_increasing_witness :
    ((commitAll (freshConnection []) sampleQueue).processOut).sentFrames.map
      counterOf = List.range' 1 3 :=
  (c1_counters_unique_increasing sampleQueue [] (by decide)).2.2.2.1

/-- C6: process(Out) swaps the whole queue out first (the swap event heads
the new trace and the resulting queue is empty), then for each entry in
FIFO order increments the connection counter, patches the header with
final size and counter, registers the handler in the correlator under the
final key, and hands the buffer to the transport; in the recorded trace
every entry registration event (index 2i after the swap) strictly
precedes its send event (index 2i + 1). -/
theorem c6_processOut_order (s : Connection) :
    s.processOut.trace = s.trace ++ Ev.swapEv s.outWork.length ::
      outEventsFrom s.replyIdCounter s.outWork ∧
    s.processOut.outWork = [] ∧
    s.processOut.replyHandlers =
      s.replyHandlers ++ regsFrom s.replyIdCounter s.outWork ∧
    s.processOut.sentFrames =
      s.sentFrames ++ framesFrom s.replyIdCounter s.outWork ∧
    s.processOut.replyIdCounter = s.replyIdCounter + s.outWork.length ∧
    ∀ i, i < s.outWork.length → ∃ key h f,
      (outEventsFrom s.replyIdCounter s.outWork).get? (2 * i) =
        some (Ev.regEv key h) ∧
      (outEventsFrom s.replyIdCounter s.outWork).get? (2 * i + 1) =
        some (Ev.sendEv f) := by
  rw [processOut_spec s]
  exact ⟨rfl, rfl, rfl, rfl, rfl,
    outEventsFrom_pairs s.outWork s.replyIdCounter⟩

/-- Witness for C6 at the concrete queue: the resulting queue is empty and
the first entry registration event (trace index 0 after the swap)
precedes its send event (index 1). -/
theorem c6_processOut_order_witness :
    (commitAll (freshConnection []) sampleQueue).processOut.outWork = [] ∧
    ∃ key h f,
      (outEventsFrom (commitAll (freshConnection [])
          sampleQueue).replyIdCounter
        (commitAll (freshConnection []) sampleQueue).outWork).get? 0 =
        some (Ev.regEv key h) ∧
      (outEventsFrom (commitAll (freshConnection [])
          sampleQueue).replyIdCounter
        (commitAll (freshConnection []) sampleQueue).outWork).get? 1 =
        some (Ev.sendEv f) := by
  have hc := c6_processOut_order (commitAll (freshConnection []) sampleQueue)
  refine ⟨hc.2.1, ?_⟩
  have h0 := hc.2.2.2.2.2 0 (by decide)
  simpa using h0

lemma abortReplies_empty (s : Connection) (h : s.replyHandlers = []) :
    s.abortReplies = s := by
  obtain ⟨ow, ric, rh, inv, ld, sf, rq, oss, osc, dss, dc, tr⟩ := s
  simp only at h
  subst h
  simp [Connection.abortReplies]

lemma process_in_closed (s : Connection) (rest : List RecvEvent)
    (hq : s.recvQueue = RecvEvent.closed :: rest) :
    s.process Direction.In =
      if s.disconnectSignalSet then
        { s.abortReplies with
          recvQueue := RecvEvent.closed :: rest
          disconnectSignalSet := false
          disconnectCount := s.disconnectCount + 1 }
      else { s.abortReplies with recvQueue := RecvEvent.closed :: rest } := by
  simp only [Connection.process, Direction.hasOut, Direction.hasIn,
    Connection.processIn, hq, processInLoop, if_false, if_true,
    Bool.false_eq_true, ite_false, ite_true]
  split <;> simp_all [Connection.abortReplies]

/-- C2: when process(In) observes the transport closed, every reply
handler registered in the correlator at that moment is invoked exactly
once with a failure result (the invocation log grows by exactly one
failure entry per correlator entry), the correlator is cleared, and the
disconnect signal, being set, fires exactly once; a second process(In) on
the same connection changes nothing: no further handler invocation and no
second disconnect. -/
theorem c2_abort_and_disconnect_once (s : Connection) (rest : List RecvEvent)
    (hq : s.recvQueue = RecvEvent.closed :: rest)
    (hsig : s.disconnectSignalSet = true) :
    (s.process Direction.In).invoked =
      s.invoked ++ s.replyHandlers.map (fun e => (e.2, RpcResult.fail)) ∧
    (s.process Direction.In).replyHandlers = [] ∧
    (s.process Direction.In).disconnectCount = s.disconnectCount + 1 ∧
    (s.process Direction.In).disconnectSignalSet = false ∧
    (s.process Direction.In).process Direction.In = s.process Direction.In := by
  have h1 := process_in_closed s rest hq
  rw [hsig] at h1
  simp only [if_true, ite_true] at h1
  have hfields :
      (s.process Direction.In).invoked =
        s.invoked ++ s.replyHandlers.map (fun e => (e.2, RpcResult.fail)) ∧
      (s.process Direction.In).replyHandlers = [] ∧
      (s.process Direction.In).disconnectCount = s.disconnectCount + 1 ∧
      (s.process Direction.In).disconnectSignalSet = false ∧
      (s.process Direction.In).recvQueue = RecvEvent.closed :: rest := by
    rw [h1]
    exact ⟨rfl, rfl, rfl, rfl, rfl⟩
  obtain ⟨f1, f2, f3, f4, f5⟩ := hfields
  refine ⟨f1, f2, f3, f4, ?_⟩
  have h2 := process_in_closed (s.process Direction.In) rest f5
  rw [f4] at h2
  simp only [Bool.false_eq_true, if_false, ite_false] at h2
  rw [h2, abortReplies_empty _ f2]
  rw [← f5]

/-- Witness for C2 at a concrete connection with two registered handlers
and a closed transport. -/
theorem c2_abort_and_disconnect_once_witness :
    (({ freshConnection [RecvEvent.closed] with
        replyHandlers := [((3, 1), 7), ((4, 2), 8)],
        invoked := [] } : Connection).process Direction.In).invoked =
      [(7, RpcResult.fail), (8, RpcResult.fail)] ∧
    (({ freshConnection [RecvEvent.closed] with
        replyHandlers := [((3, 1), 7), ((4, 2), 8)],
        invoked := [] } : Connection).process Direction.In).disconnectCount = 1 := by
  have h := c2_abort_and_disconnect_once
    ({ freshConnection [RecvEvent.closed] with
        replyHandlers := [((3, 1), 7), ((4, 2), 8)], invoked := [] })
    [] rfl rfl
  refine ⟨?_, ?_⟩
  · rw [h.1]; rfl
  · rw [h.2.2.1]; rfl

/-- C8: on a transport reporting open with no data, process(In) returns
true and the only state change is consuming the receive outcome: the
correlator, the invocation log and the disconnect state are untouched. -/
theorem c8_open_no_data (s : Connection) (rest : List RecvEvent)
    (hq : s.recvQueue = RecvEvent.nodata :: rest) :
    s.processIn = ({ s with recvQueue := rest }, true) ∧
    s.process Direction.In = { s with recvQueue := rest } := by
  constructor
  · simp [Connection.processIn, hq, processInLoop]
  · simp [Connection.process, Direction.hasOut, Direction.hasIn,
      Connection.processIn, hq, processInLoop]

/-- Witness for C8 at a concrete connection holding one correlator
entry. -/
theorem c8_open_no_data_witness :
    ({ freshConnection [RecvEvent.nodata] with
        replyHandlers := [((3, 1), 7)] } : Connection).processIn =
      ({ { freshConnection [RecvEvent.nodata] with
            replyHandlers := [((3, 1), 7)] } with recvQueue := [] }, true) ∧
    ({ freshConnection [RecvEvent.nodata] with
        replyHandlers := [((3, 1), 7)] } : Connection).process Direction.In =
      { { freshConnection [RecvEvent.nodata] with
            replyHandlers := [((3, 1), 7)] } with recvQueue := [] } :=
  c8_open_no_data
    ({ freshConnection [RecvEvent.nodata] with replyHandlers := [((3, 1), 7)] })
    [] rfl

/-- Fold of the per-frame routing step over a list of inbound frames. -/
def foldInStep (s : Connection) (fs : List (List Nat)) : Connection :=
  fs.foldl inStep s

lemma processInLoop_frames (fs : List (List Nat)) (rest : List RecvEvent)
    (s : Connection) :
    processInLoop (fs.map RecvEvent.frame ++ RecvEvent.nodata :: rest) s =
      ({ foldInStep s fs with recvQueue := rest }, true) := by
  induction fs generalizing s with
  | nil => simp [processInLoop, foldInStep]
  | cons d ds ih => simpa [processInLoop, foldInStep] using ih (inStep s d)

/-- C5: one process(In) call drains every queued frame until the transport
reports open-with-no-data (part 1: the loop folds the routing step over
all N frames in one pass and returns true); per frame, a reply frame whose
key has a correlator entry has that entry removed and its handler invoked
with the decoded body (part 2); a reply frame whose key has no entry is
discarded without any state change (part 3); a non-reply frame is routed
to the local-dispatch delegate (part 4). -/
theorem c5_inbound_routing :
    (∀ (fs : List (List Nat)) (rest : List RecvEvent) (s : Connection),
      s.recvQueue = fs.map RecvEvent.frame ++ RecvEvent.nodata :: rest →
        s.processIn = ({ foldInStep s fs with recvQueue := rest }, true)) ∧
    (∀ (s : Connection) (data : List Nat) (e : (Nat × Nat) × Nat),
      (decodeHeader data).isReply = true →
      s.replyHandlers.find? (fun x => x.1 == (decodeHeader data).key) = some e →
        inStep s data =
          { s with
            replyHandlers :=
              s.replyHandlers.eraseP (fun x => x.1 == (decodeHeader data).key)
            invoked := s.invoked ++
              [(e.2, RpcResult.ok (data.drop headerWords))] }) ∧
    (∀ (s : Connection) (data : List Nat),
      (decodeHeader data).isReply = true →
      s.replyHandlers.find? (fun x => x.1 == (decodeHeader data).key) = none →
        inStep s data = s) ∧
    (∀ (s : Connection) (data : List Nat),
      (decodeHeader data).isReply = false →
        inStep s data =
          { s with localDispatched := s.localDispatched ++ [data] }) := by
  refine ⟨?_, ?_, ?_, ?_⟩
  · intro fs rest s hq
    rw [Connection.processIn, hq]
    exact processInLoop_frames fs rest s
  · intro s data e hr hf
    simp [inStep, hr, Connection.processReply, hf]
  · intro s data hr hf
    simp [inStep, hr, Connection.processReply, hf]
  · intro s data hr
    simp [inStep, hr, Connection.processCall]

/-- Witness for C5: a two-frame queue (one reply with a matching entry,
one call frame) drained in a single process(In); plus the three per-frame
routing facts at concrete frames. -/
theorem c5_inbound_routing_witness :
    ({ freshConnection [RecvEvent.frame [5, 1, 0, 1, 42],
          RecvEvent.frame [6, 0, 0, 0, 9], RecvEvent.nodata] with
        replyHandlers := [((5, 1), 9)] } : Connection).processIn =
      ({ foldInStep
          ({ freshConnection [RecvEvent.frame [5, 1, 0, 1, 42],
              RecvEvent.frame [6, 0, 0, 0, 9], RecvEvent.nodata] with
            replyHandlers := [((5, 1), 9)] })
          [[5, 1, 0, 1, 42], [6, 0, 0, 0, 9]] with recvQueue := [] }, true) ∧
    inStep ({ freshConnection [] with replyHandlers := [((5, 1), 9)] })
        [5, 1, 0, 1, 42] =
      { ({ freshConnection [] with replyHandlers := [((5, 1), 9)] } :
          Connection) with
        replyHandlers :=
          (([((5, 1), 9)] : List ((Nat × Nat) × Nat)).eraseP
            (fun x => x.1 == (decodeHeader [5, 1, 0, 1, 42]).key))
        invoked := [(9, RpcResult.ok [42])] } ∧
    inStep (freshConnection []) [5, 1, 0, 1, 42] = freshConnection [] ∧
    inStep (freshConnection []) [6, 0, 0, 0, 9] =
      { freshConnection [] with localDispatched := [[6, 0, 0, 0, 9]] } := by
  refine ⟨?_, ?_, ?_, ?_⟩
  · exact c5_inbound_routing.1 [[5, 1, 0, 1, 42], [6, 0, 0, 0, 9]] []
      ({ freshConnection [RecvEvent.frame [5, 1, 0, 1, 42],
          RecvEvent.frame [6, 0, 0, 0, 9], RecvEvent.nodata] with
        replyHandlers := [((5, 1), 9)] }) rfl
  · have h := c5_inbound_routing.2.1
      ({ freshConnection [] with replyHandlers := [((5, 1), 9)] })
      [5, 1, 0, 1, 42] ((5, 1), 9) (by decide) (by decide)
    simpa using h
  · exact c5_inbound_routing.2.2.1 (freshConnection []) [5, 1, 0, 1, 42]
      (by decide) (by decide)
  · exact c5_inbound_routing.2.2.2 (freshConnection []) [6, 0, 0, 0, 9]
      (by decide)

/-- C7: patching the reserved header at send time overwrites only the
size and counter cells in place: the buffer length is unchanged, the
callId and isReply cells are unchanged (also as decoded), every body cell
after the header is unchanged, and the size and counter cells hold the
patched values. -/
theorem c7_patch_only_size_counter : ∀ (d : List Nat), 4 ≤ d.length →
    ∀ sz cnt,
    (patch d sz cnt).length = d.length ∧
    (patch d sz cnt).getD 0 0 = d.getD 0 0 ∧
    (patch d sz cnt).getD 1 0 = d.getD 1 0 ∧
    (patch d sz cnt).getD 2 0 = sz ∧
    (patch d sz cnt).getD 3 0 = cnt ∧
    (patch d sz cnt).drop headerWords = d.drop headerWords ∧
    (decodeHeader (patch d sz cnt)).rpcid = (decodeHeader d).rpcid ∧
    (decodeHeader (patch d sz cnt)).isReply = (decodeHeader d).isReply
  | _ :: _ :: _ :: _ :: _, _, sz, cnt => by
      simp [patch, headerWords, decodeHeader]

/-- Witness for C7 at a concrete buffer with a body. -/
theorem c7_patch_only_size_counter_witness :
    (patch [7, 1, 0, 0, 5, 6] 6 3).length = 6 ∧
    (patch [7, 1, 0, 0, 5, 6] 6 3).getD 0 0 = 7 ∧
    (patch [7, 1, 0, 0, 5, 6] 6 3).getD 3 0 = 3 ∧
    (patch [7, 1, 0, 0, 5, 6] 6 3).drop headerWords = [5, 6] := by
  have h := c7_patch_only_size_counter [7, 1, 0, 0, 5, 6] (by decide) 6 3
  exact ⟨h.1, h.2.1, h.2.2.2.2.1, by rw [h.2.2.2.2.2.1]; rfl⟩

/-- Counterexample to C3 as stated: a second async on an
already-committed builder is not rejected and there is no
DoubleCommitError in the code; it commits again, so after two asyncs on
the same builder the outbound queue holds two send actions, the second
capturing the moved-from (empty) buffer. -/
theorem c3_counterexample :
    (((Connection.call 7 [9, 9]).async 11 (freshConnection [])).1.async 12
        ((Connection.call 7 [9, 9]).async 11 (freshConnection [])).2).2.outWork =
      [([7, 0, 0, 0, 9, 9], 11), ([], 12)] ∧
    ((Connection.call 7 [9, 9]).async 11 (freshConnection [])).1.committed =
      true := by
  exact ⟨rfl, rfl⟩

/-- C3 amended: Call::async performs no double-commit check; a second
async or future on an already-committed builder enqueues a second send
action capturing the builder current (moved-from, empty) buffer instead
of failing, and the committed flag only suppresses the destructor
implicit commit. -/
theorem c3_second_commit_not_rejected (c : Call) (con : Connection) (h : Nat)
    (hc : c.committed = true) :
    (c.async h con).2.outWork = con.outWork ++ [(c.data, h)] ∧
    (c.async h con).1.committed = true ∧
    (c.async h con).1.data = [] := by
  exact ⟨rfl, rfl, rfl⟩

/-- Witness for the amended C3 at a builder committed by a first async. -/
theorem c3_second_commit_not_rejected_witness :
    ((((Connection.call 7 [9, 9]).async 11 (freshConnection [])).1).async 12
        (((Connection.call 7 [9, 9]).async 11 (freshConnection [])).2)).2.outWork =
      ((((Connection.call 7 [9, 9]).async 11 (freshConnection [])).2)).outWork ++
        [(((((Connection.call 7 [9, 9]).async 11 (freshConnection [])).1)).data,
          12)] :=
  (c3_second_commit_not_rejected
    (((Connection.call 7 [9, 9]).async 11 (freshConnection [])).1)
    (((Connection.call 7 [9, 9]).async 11 (freshConnection [])).2) 12 rfl).1

/-- Counterexample to C4 as stated: a builder on which serializeParams was
never invoked (its body after the reserved header is empty) and which was
never committed still triggers the implicit async in its destructor,
because the destructor tests the stream total writeSize, which already
counts the reserved header written by the constructor. -/
theorem c4_counterexample :
    ((Call.mkCall 5).dtor (freshConnection [])).outWork.length = 1 ∧
    (Call.mkCall 5).data.drop headerWords = [] ∧
    (Call.mkCall 5).committed = false := by
  exact ⟨rfl, rfl, rfl⟩

/-- C4 amended: the destructor triggers the implicit async with the no-op
handler iff the stream writeSize is non-zero (which holds for every
builder whose header was reserved and not moved away, whether or not
serializeParams was invoked) and the builder is uncommitted; in
particular a builder on which serializeParams was invoked and which was
committed by neither async nor future still queues exactly one frame on
destruction. -/
theorem c4_dtor_commits_iff_nonempty_uncommitted (c : Call) (con : Connection) :
    ((c.dtor con).outWork = con.outWork ++ [(c.data, noopHandler)] ↔
      writeSize c.data ≠ 0 ∧ c.committed = false) ∧
    ∀ rpcid args,
      (((Call.mkCall rpcid).serializeParams args).dtor con).outWork =
        con.outWork ++
          [(((Call.mkCall rpcid).serializeParams args).data, noopHandler)] := by
  constructor
  · cases hb : (writeSize c.data != 0 && !c.committed) with
    | false =>
      have hdt : c.dtor con = con := by simp [Call.dtor, hb]
      rw [hdt]
      constructor
      · intro heq
        have hlen := congrArg List.length heq
        simp at hlen
      · intro hcd
        have hbt : (writeSize c.data != 0 && !c.committed) = true := by
          simp [hcd.1, hcd.2]
        rw [hb] at hbt
        exact absurd hbt (by simp)
    | true =>
      have hcd : writeSize c.data ≠ 0 ∧ c.committed = false := by
        simpa [Bool.and_eq_true, bne_iff_ne, Bool.not_eq_true'] using hb
      have hdt : c.dtor con = (c.async noopHandler con).2 := by
        simp [Call.dtor, hb]
      rw [hdt]
      simp [Call.async, Connection.commit, hcd.1, hcd.2]
  · intro rpcid args
    have hlen : writeSize ((Call.mkCall rpcid).serializeParams args).data ≠ 0 := by
      simp [Call.mkCall, Call.serializeParams, writeSize, encodeHeader]
    have hcom : ((Call.mkCall rpcid).serializeParams args).committed = false := rfl
    simp [Call.dtor, bne_iff_ne, hlen, hcom, Call.async, Connection.commit]

/-- Witness for the amended C4: a serialized, uncommitted builder queues
exactly one frame on destruction, and the iff at a concrete builder. -/
theorem c4_dtor_commits_iff_nonempty_uncommitted_witness :
    ((((Call.mkCall 5).serializeParams [8]).dtor (freshConnection [])).outWork =
      (freshConnection []).outWork ++
        [(((Call.mkCall 5).serializeParams [8]).data, noopHandler)]) ∧
    (((Call.mkCall 5).dtor (freshConnection [])).outWork =
        (freshConnection []).outWork ++
          [((Call.mkCall 5).data, noopHandler)] ↔
      writeSize (Call.mkCall 5).data ≠ 0 ∧ (Call.mkCall 5).committed = false) :=
  ⟨(c4_dtor_commits_iff_nonempty_uncommitted (Call.mkCall 5)
      (freshConnection [])).2 5 [8],
   (c4_dtor_commits_iff_nonempty_uncommitted (Call.mkCall 5)
      (freshConnection [])).1⟩

/-- Iterated move of a builder: moveChain c k is the builder after k move
constructions. -/
def moveChain (c : Call) : Nat → Call
  | 0 => c
  | k + 1 => (Call.moveFrom (moveChain c k)).1

/-- C10: a moved-from builder buffer is left empty, so its destructor
never enqueues a send action; the moved-to builder is identical to the
original, so however many times a builder returned by call or callGeneric
is moved, destroying every builder in the chain queues at most one frame
(the destructor of the final builder adds at most one entry, each
moved-from destructor adds none). -/
theorem c10_move_at_most_one_frame (c : Call) (con : Connection) (k : Nat) :
    (Call.moveFrom (moveChain c k)).2.data = [] ∧
    Call.dtor (Call.moveFrom (moveChain c k)).2 con = con ∧
    moveChain c k = c ∧
    (Call.dtor (moveChain c k) con).outWork.length ≤ con.outWork.length + 1 := by
  have hchain : moveChain c k = c := by
    induction k with
    | zero => rfl
    | succ n ih => simp [moveChain, Call.moveFrom, ih]
  refine ⟨rfl, rfl, hchain, ?_⟩
  rw [Call.dtor]
  split
  · simp [Call.async, Connection.commit]
  · exact Nat.le_succ _

/-- One atomic operation on the Monitor-protected outbound queue: an
enqueue performed by some producer thread commit, or the single swap
performed by process(Out). The Monitor mutual exclusion makes each
operation atomic, so an interleaving is a sequence of these. -/
inductive QOp
  | enq (e : List Nat × Nat)
  | swapQ
deriving Repr, DecidableEq

/-- Queue state under an interleaving: the live queue and the entries
swapped out into process(Out) private local list. -/
structure QState where
  q : List (List Nat × Nat)
  drained : List (List Nat × Nat)
deriving Repr, DecidableEq

/-- Effect of one atomic queue operation. -/
def qStep (st : QState) : QOp → QState
  | QOp.enq e => { st with q := st.q ++ [e] }
  | QOp.swapQ => { q := [], drained := st.drained ++ st.q }

/-- Run an interleaving from a given state. -/
def runQFrom (st : QState) (ops : List QOp) : QState := ops.foldl qStep st

/-- Run an interleaving from the empty queue. -/
def runQ (ops : List QOp) : QState := runQFrom { q := [], drained := [] } ops

/-- The entries enqueued by an interleaving, in order. -/
def enqueuedOf : List QOp → List (List Nat × Nat)
  | [] => []
  | QOp.enq e :: rest => e :: enqueuedOf rest
  | QOp.swapQ :: rest => enqueuedOf rest

lemma runQFrom_count (ops : List QOp) (st : QState) (x : List Nat × Nat) :
    (enqueuedOf ops).count x + (st.q ++ st.drained).count x =
      ((runQFrom st ops).q ++ (runQFrom st ops).drained).count x := by
  induction ops generalizing st with
  | nil => simp [runQFrom, enqueuedOf]
  | cons op rest ih =>
    cases op with
    | enq e =>
      have hr : runQFrom st (QOp.enq e :: rest) =
          runQFrom (qStep st (QOp.enq e)) rest := rfl
      rw [hr, ← ih (qStep st (QOp.enq e))]
      simp only [enqueuedOf, qStep, List.count_append, List.count_cons]
      by_cases hex : e = x <;> simp [hex] <;> omega
    | swapQ =>
      have hr : runQFrom st (QOp.swapQ :: rest) =
          runQFrom (qStep st QOp.swapQ) rest := rfl
      rw [hr, ← ih (qStep st QOp.swapQ)]
      simp only [enqueuedOf, qStep, List.count_append, List.count_nil]
      omega

/-- C9: under any interleaving of atomic commit enqueues from any number
of producer threads with the one swap of a process(Out) call, every
enqueued entry ends up exactly once in the swapped-out local list plus the
remaining queue (none lost, none duplicated), and process(Out) loop then
executes each swapped-out entry exactly once: one transport send per
drained entry, in order. -/
theorem c9_swap_exactly_once (ops : List QOp) (x : List Nat × Nat)
    (s : Connection) :
    ((runQ ops).drained ++ (runQ ops).q).count x = (enqueuedOf ops).count x ∧
    (runOutWork s (runQ ops).drained).sentFrames =
      s.sentFrames ++ framesFrom s.replyIdCounter (runQ ops).drained ∧
    (framesFrom s.replyIdCounter (runQ ops).drained).length =
      (runQ ops).drained.length := by
  refine ⟨?_, ?_, ?_⟩
  · have h := runQFrom_count ops { q := [], drained := [] } x
    simp only [List.append_nil, List.count_nil] at h
    rw [runQ]
    simp only [List.count_append] at h ⊢
    omega
  · have h := runOutWork_spec (runQ ops).drained s
    rw [h]
  · exact length_framesFrom (runQ ops).drained s.replyIdCounter

end CzRpc
